import Mathlib

/-!
Verification of the terrain-analyzer core (src/app.py).

The repository's own code is the function `process_function` (src/app.py,
lines 54-80), the module-level grid construction it contains (lines 69-75),
and the steepness classification (lines 125-131).  `process_function`
composes calls into the third-party symbolic library (sympify, diff,
lambdify) and numpy; those library internals are not part of the
repository, so they are modelled here from the specification (spec.md
sections 4.1, 4.2 and the design notes), which prescribes a
recursive-descent parser over the fixed function allow-list, recursive
symbolic differentiation, and a dual scalar/grid evaluator.  Everything
at the level of src/app.py itself (the try/except all-or-nothing result
tuple, the order of the numeric evaluations, the fixed 100 by 100 mesh
over [-6,6] x [-6,6], the isinstance scalar-broadcast fix-up, and the
gradient-magnitude threshold 0.1) is translated directly from the source.

Numeric idealization: Python floats are modelled as rationals; the values
of the transcendental functions (sin, cos, tan, exp, log, sqrt on valid
arguments) are supplied by an arbitrary interpretation `NumModel`, since
their floating-point digits are outside the model.  No claim depends on
those digits; domain behaviour (log of a non-positive number, square root
of a negative number, division by zero, fractional powers of negatives)
is modelled explicitly, following spec section 4.2 step 3.
-/

namespace Terrain

/-- The two variables of a formula (spec section 3, Formula). -/
inductive Var where
  | x
  | y
deriving DecidableEq

/-- The allow-listed function names (spec section 4.1). -/
inductive FnName where
  | sin
  | cos
  | tan
  | exp
  | log
  | sqrt
  | abs
deriving DecidableEq

/-- Modelled from the spec: the tagged expression tree the design notes
prescribe for the symbolic form produced by the parser (spec section 9,
first note), standing in for the library's symbolic expressions. -/
inductive Expr where
  | num (q : ℚ)
  | var (v : Var)
  | add (a b : Expr)
  | sub (a b : Expr)
  | mul (a b : Expr)
  | div (a b : Expr)
  | neg (a : Expr)
  | pow (a b : Expr)
  | call (f : FnName) (a : Expr)
deriving DecidableEq

/-- Does the expression mention the given variable? (spec section 4.1:
free variables are a subset of x, y). -/
def usesVar (v : Var) : Expr → Bool
  | .num _ => false
  | .var w => w = v
  | .add a b => usesVar v a || usesVar v b
  | .sub a b => usesVar v a || usesVar v b
  | .mul a b => usesVar v a || usesVar v b
  | .div a b => usesVar v a || usesVar v b
  | .pow a b => usesVar v a || usesVar v b
  | .neg a => usesVar v a
  | .call _ a => usesVar v a

/-- An expression with no variables at all: its compiled evaluator
returns a bare scalar in grid mode (spec section 4.2 step 4). -/
def isConst (e : Expr) : Bool := !usesVar .x e && !usesVar .y e

/-- Negation with the basic constant folding the symbolic library
performs automatically on construction. -/
def negS : Expr → Expr
  | .num p => .num (-p)
  | a => .neg a

/-- Addition with basic automatic simplification (0 + e = e, folding of
numeral arguments), mirroring the library's automatic construction rules. -/
def addS (a b : Expr) : Expr :=
  match a, b with
  | .num p, .num q => .num (p + q)
  | .num p, b => if p = 0 then b else .add (.num p) b
  | a, .num q => if q = 0 then a else .add a (.num q)
  | a, b => .add a b

/-- Subtraction with basic automatic simplification. -/
def subS (a b : Expr) : Expr :=
  match a, b with
  | .num p, .num q => .num (p - q)
  | .num p, b => if p = 0 then negS b else .sub (.num p) b
  | a, .num q => if q = 0 then a else .sub a (.num q)
  | a, b => .sub a b

/-- Multiplication with basic automatic simplification (0 * e = 0,
1 * e = e, folding of numeral arguments). -/
def mulS (a b : Expr) : Expr :=
  match a, b with
  | .num p, .num q => .num (p * q)
  | .num p, b => if p = 0 then .num 0 else if p = 1 then b else .mul (.num p) b
  | a, .num q => if q = 0 then .num 0 else if q = 1 then a else .mul a (.num q)
  | a, b => .mul a b

/-- Division with basic automatic simplification (0 / e = 0, e / 1 = e). -/
def divS (a b : Expr) : Expr :=
  match a, b with
  | .num p, b => if p = 0 then .num 0 else .div (.num p) b
  | a, .num q => if q = 1 then a else .div a (.num q)
  | a, b => .div a b

/-- Power with basic automatic simplification (e ^ 1 = e, e ^ 0 = 1). -/
def powS (a b : Expr) : Expr :=
  if b = .num 1 then a else if b = .num 0 then .num 1 else .pow a b

/-- Modelled from the spec: derivative of each allow-listed function,
used by the chain rule (spec section 4.2 step 1 and section 9, second
note); stands in for the library's differentiation of function nodes. -/
def dFn : FnName → Expr → Expr
  | .sin, a => .call .cos a
  | .cos, a => negS (.call .sin a)
  | .tan, a => divS (.num 1) (mulS (.call .cos a) (.call .cos a))
  | .exp, a => .call .exp a
  | .log, a => divS (.num 1) a
  | .sqrt, a => divS (.num 1) (mulS (.num 2) (.call .sqrt a))
  | .abs, a => divS a (.call .abs a)

/-- Modelled from the spec: symbolic differentiation by the standard
rules (sum, product, quotient, chain, power; spec section 4.2 step 1),
standing in for the library call diff(expr, v) at src/app.py lines 58-59. -/
def diffE : Expr → Var → Expr
  | .num _, _ => .num 0
  | .var w, v => if w = v then .num 1 else .num 0
  | .add a b, v => addS (diffE a v) (diffE b v)
  | .sub a b, v => subS (diffE a v) (diffE b v)
  | .neg a, v => negS (diffE a v)
  | .mul a b, v => addS (mulS (diffE a v) b) (mulS a (diffE b v))
  | .div a b, v =>
      divS (subS (mulS (diffE a v) b) (mulS a (diffE b v))) (mulS b b)
  | .pow a b, v =>
      if usesVar v b then
        mulS (.pow a b)
          (addS (mulS (diffE b v) (.call .log a)) (divS (mulS b (diffE a v)) a))
      else
        mulS (mulS b (powS a (subS b (.num 1)))) (diffE a v)
  | .call f a, v => mulS (diffE a v) (dFn f a)

/-- An interpretation of the floating-point values of the transcendental
functions on their valid domains.  The claims under verification never
depend on these values, only on domain behaviour, so every theorem holds
for an arbitrary interpretation. -/
structure NumModel where
  sinV : ℚ → ℚ
  cosV : ℚ → ℚ
  tanV : ℚ → ℚ
  expV : ℚ → ℚ
  logV : ℚ → ℚ
  sqrtV : ℚ → ℚ
  powV : ℚ → ℚ → ℚ

/-- A fixed concrete interpretation, used to instantiate witnesses. -/
def M0 : NumModel :=
  ⟨fun _ => 0, fun _ => 0, fun _ => 0, fun _ => 0, fun _ => 0, fun _ => 0,
   fun _ _ => 0⟩

/-- Modelled from the spec: numeric application of an allow-listed
function, failing on out-of-domain arguments (spec section 4.2 step 3:
non-finite or non-real results are errors). -/
def applyFn (M : NumModel) : FnName → ℚ → Except String ℚ
  | .sin, q => .ok (M.sinV q)
  | .cos, q => .ok (M.cosV q)
  | .tan, q => .ok (M.tanV q)
  | .exp, q => .ok (M.expV q)
  | .log, q => if q ≤ 0 then .error "log domain error" else .ok (M.logV q)
  | .sqrt, q => if q < 0 then .error "sqrt domain error" else .ok (M.sqrtV q)
  | .abs, q => .ok |q|

/-- Modelled from the spec: numeric exponentiation.  Integer exponents
are exact (negative powers of zero fail); a fractional exponent of a
negative base is a complex result and fails (spec section 4.2 step 3). -/
def powEval (M : NumModel) (a b : ℚ) : Except String ℚ :=
  if b.den = 1 then
    if b.num < 0 then
      if a = 0 then .error "zero to a negative power" else .ok (a ^ b.num)
    else .ok (a ^ b.num)
  else
    if a < 0 then .error "complex result"
    else if a = 0 then
      if b < 0 then .error "zero to a negative power" else .ok 0
    else .ok (M.powV a b)

/-- Modelled from the spec: the scalar mode of the compiled numeric
evaluator (spec section 4.2 steps 2-3 and section 9, third note),
standing in for calling a lambdify result on a pair of scalars
(src/app.py lines 61-67).  Division by zero and domain errors fail
rather than producing a non-finite or non-real value. -/
def evalS (M : NumModel) : Expr → ℚ → ℚ → Except String ℚ
  | .num q, _, _ => .ok q
  | .var .x, xv, _ => .ok xv
  | .var .y, _, yv => .ok yv
  | .add a b, xv, yv =>
      match evalS M a xv yv, evalS M b xv yv with
      | .ok u, .ok v => .ok (u + v)
      | .error m, _ => .error m
      | _, .error m => .error m
  | .sub a b, xv, yv =>
      match evalS M a xv yv, evalS M b xv yv with
      | .ok u, .ok v => .ok (u - v)
      | .error m, _ => .error m
      | _, .error m => .error m
  | .mul a b, xv, yv =>
      match evalS M a xv yv, evalS M b xv yv with
      | .ok u, .ok v => .ok (u * v)
      | .error m, _ => .error m
      | _, .error m => .error m
  | .div a b, xv, yv =>
      match evalS M a xv yv, evalS M b xv yv with
      | .ok u, .ok v => if v = 0 then .error "division by zero" else .ok (u / v)
      | .error m, _ => .error m
      | _, .error m => .error m
  | .neg a, xv, yv =>
      match evalS M a xv yv with
      | .ok u => .ok (-u)
      | .error m => .error m
  | .pow a b, xv, yv =>
      match evalS M a xv yv, evalS M b xv yv with
      | .ok u, .ok v => powEval M u v
      | .error m, _ => .error m
      | _, .error m => .error m
  | .call f a, xv, yv =>
      match evalS M a xv yv with
      | .ok u => applyFn M f u
      | .error m => .error m

/-- Tokens of the formula grammar (spec section 4.1): numeric literals,
identifiers, the arithmetic operators, Python's ** power operator, and
grouping parentheses. -/
inductive Tok where
  | num (q : ℚ)
  | ident (s : String)
  | plus
  | minus
  | star
  | slash
  | dstar
  | lparen
  | rparen
deriving DecidableEq

/-- Numeric value of a digit character. -/
def digitVal (c : Char) : Nat := c.toNat - 48

/-- Consume a run of digits, accumulating their value. -/
def readDigits : List Char → Nat → Nat × List Char
  | [], acc => (acc, [])
  | c :: cs, acc =>
      if c.isDigit then readDigits cs (acc * 10 + digitVal c) else (acc, c :: cs)

/-- Consume a run of digits, accumulating their value and their count
(for the fractional part of a decimal literal). -/
def readDigitsC : List Char → Nat → Nat → Nat × Nat × List Char
  | [], acc, k => (acc, k, [])
  | c :: cs, acc, k =>
      if c.isDigit then readDigitsC cs (acc * 10 + digitVal c) (k + 1)
      else (acc, k, c :: cs)

/-- Modelled from the spec: the tokenizer of the formula grammar (spec
section 4.1; part of the library parse that src/app.py line 57 invokes).
Any character outside the grammar is rejected.  The fuel argument bounds
recursion and always suffices for the input length. -/
def tokenizeF : Nat → List Char → Except String (List Tok)
  | 0, _ => .error "formula too long"
  | _ + 1, [] => .ok []
  | fuel + 1, c :: cs =>
      if c = ' ' then tokenizeF fuel cs
      else if c = '+' then (tokenizeF fuel cs).map (Tok.plus :: ·)
      else if c = '-' then (tokenizeF fuel cs).map (Tok.minus :: ·)
      else if c = '/' then (tokenizeF fuel cs).map (Tok.slash :: ·)
      else if c = '(' then (tokenizeF fuel cs).map (Tok.lparen :: ·)
      else if c = ')' then (tokenizeF fuel cs).map (Tok.rparen :: ·)
      else if c = '*' then
        match cs with
        | '*' :: cs' => (tokenizeF fuel cs').map (Tok.dstar :: ·)
        | _ => (tokenizeF fuel cs).map (Tok.star :: ·)
      else if c.isDigit then
        match readDigits (c :: cs) 0 with
        | (n, rest) =>
          match rest with
          | '.' :: rest' =>
            match readDigitsC rest' 0 0 with
            | (m, k, rest'') =>
              (tokenizeF fuel rest'').map
                (Tok.num ((n : ℚ) + (m : ℚ) / (10 : ℚ) ^ k) :: ·)
          | _ => (tokenizeF fuel rest).map (Tok.num (n : ℚ) :: ·)
      else if c.isAlpha then
        (tokenizeF fuel ((c :: cs).dropWhile Char.isAlpha)).map
          (Tok.ident (String.mk ((c :: cs).takeWhile Char.isAlpha)) :: ·)
      else .error "unexpected character"

/-- Name lookup for the allow-listed functions (spec section 4.1: at
minimum sin, cos, tan, exp, log/ln, sqrt, abs). -/
def fnOfName : String → Option FnName
  | "sin" => some .sin
  | "cos" => some .cos
  | "tan" => some .tan
  | "exp" => some .exp
  | "log" => some .log
  | "ln" => some .log
  | "sqrt" => some .sqrt
  | "abs" => some .abs
  | _ => none

/-- The production currently being parsed: sums, products, unary minus,
powers, atoms, and the two left-recursion accumulator loops. -/
inductive PMode where
  | addM
  | addLoopM (acc : Expr)
  | mulM
  | mulLoopM (acc : Expr)
  | unaryM
  | powM
  | atomM

/-- Modelled from the spec: the recursive-descent parser over the
two-variable grammar that the design notes prescribe (spec section 9,
first note), standing in for the library parse invoked at src/app.py
line 57.  Unknown identifiers (including a third free variable),
malformed operator sequences, and unmatched grouping are rejected here,
at parse time (spec section 4.1).  Precedence follows Python: +,- then
*,/ then unary minus, then ** (right associative, binding tighter than
unary minus on its left argument). -/
def parseP : Nat → PMode → List Tok → Except String (Expr × List Tok)
  | 0, _, _ => .error "expression too deeply nested"
  | fuel + 1, .addM, ts =>
      match parseP fuel .mulM ts with
      | .ok (e, ts₁) => parseP fuel (.addLoopM e) ts₁
      | .error m => .error m
  | fuel + 1, .addLoopM acc, .plus :: ts =>
      match parseP fuel .mulM ts with
      | .ok (e, ts₁) => parseP fuel (.addLoopM (.add acc e)) ts₁
      | .error m => .error m
  | fuel + 1, .addLoopM acc, .minus :: ts =>
      match parseP fuel .mulM ts with
      | .ok (e, ts₁) => parseP fuel (.addLoopM (.sub acc e)) ts₁
      | .error m => .error m
  | _ + 1, .addLoopM acc, ts => .ok (acc, ts)
  | fuel + 1, .mulM, ts =>
      match parseP fuel .unaryM ts with
      | .ok (e, ts₁) => parseP fuel (.mulLoopM e) ts₁
      | .error m => .error m
  | fuel + 1, .mulLoopM acc, .star :: ts =>
      match parseP fuel .unaryM ts with
      | .ok (e, ts₁) => parseP fuel (.mulLoopM (.mul acc e)) ts₁
      | .error m => .error m
  | fuel + 1, .mulLoopM acc, .slash :: ts =>
      match parseP fuel .unaryM ts with
      | .ok (e, ts₁) => parseP fuel (.mulLoopM (.div acc e)) ts₁
      | .error m => .error m
  | _ + 1, .mulLoopM acc, ts => .ok (acc, ts)
  | fuel + 1, .unaryM, .minus :: ts =>
      match parseP fuel .unaryM ts with
      | .ok (e, ts₁) => .ok (.neg e, ts₁)
      | .error m => .error m
  | fuel + 1, .unaryM, ts => parseP fuel .powM ts
  | fuel + 1, .powM, ts =>
      match parseP fuel .atomM ts with
      | .ok (a, .dstar :: ts₂) =>
          match parseP fuel .unaryM ts₂ with
          | .ok (b, ts₃) => .ok (.pow a b, ts₃)
          | .error m => .error m
      | .ok (a, ts₁) => .ok (a, ts₁)
      | .error m => .error m
  | _ + 1, .atomM, .num q :: ts => .ok (.num q, ts)
  | fuel + 1, .atomM, .ident n :: ts =>
      if n = "x" then .ok (.var .x, ts)
      else if n = "y" then .ok (.var .y, ts)
      else
        match fnOfName n, ts with
        | some f, .lparen :: ts₁ =>
            match parseP fuel .addM ts₁ with
            | .ok (a, .rparen :: ts₂) => .ok (.call f a, ts₂)
            | .ok (_, _) => .error "expected closing parenthesis"
            | .error m => .error m
        | some _, _ => .error "expected parenthesis after function name"
        | none, _ => .error (String.append "unknown symbol " n)
  | fuel + 1, .atomM, .lparen :: ts =>
      match parseP fuel .addM ts with
      | .ok (e, .rparen :: ts₁) => .ok (e, ts₁)
      | .ok (_, _) => .error "unmatched parenthesis"
      | .error m => .error m
  | _ + 1, .atomM, _ => .error "unexpected token"

/-- Modelled from the spec: the whole compile step, string to symbolic
expression or parse error (spec section 4.1, contract of compile),
standing in for the library parse at src/app.py line 57.  An empty or
whitespace-only formula, leftover tokens, or any rejection from the
tokenizer or parser is a parse error. -/
def sympify (s : String) : Except String Expr :=
  match tokenizeF (s.length + 1) s.toList with
  | .error m => .error m
  | .ok [] => .error "empty expression"
  | .ok ts =>
      match parseP (5 * ts.length + 10) .addM ts with
      | .ok (e, []) => .ok e
      | .ok (_, _ :: _) => .error "unexpected trailing input"
      | .error m => .error m

/-- np.linspace a b n: n evenly spaced samples from a to b inclusive
(src/app.py lines 69-70 use np.linspace(-6, 6, 100)). -/
def np_linspace (a b : ℚ) (n : Nat) : List ℚ :=
  (List.range n).map (fun i : Nat => a + (b - a) * (i : ℚ) / ((n : ℚ) - 1))

/-- The x sample axis fixed by src/app.py line 69. -/
def x_range : List ℚ := np_linspace (-6) 6 100

/-- The y sample axis fixed by src/app.py line 70. -/
def y_range : List ℚ := np_linspace (-6) 6 100

/-- First component of np.meshgrid(x_range, y_range) (src/app.py line
71): row i is the whole x axis. -/
def meshX : List (List ℚ) := y_range.map (fun _ => x_range)

/-- Second component of np.meshgrid(x_range, y_range): row i is
constant at the i-th y sample. -/
def meshY : List (List ℚ) := y_range.map (fun yv => x_range.map (fun _ => yv))

/-- np.full_like(X, z) (src/app.py line 75): an array shaped like X
with every entry z. -/
def np_full_like (X : List (List ℚ)) (z : ℚ) : List (List ℚ) :=
  X.map (fun row => row.map (fun _ => z))

/-- Result of applying a compiled evaluator to the coordinate arrays: a
bare scalar when the expression mentions neither variable, an array
otherwise (spec section 4.2 step 4; the scalar case is what src/app.py
line 74 tests with isinstance). -/
inductive NpVal where
  | scalar (q : ℚ)
  | grid (g : List (List ℚ))

/-- Element-wise evaluation along one pair of coordinate rows; the
first failing cell aborts with its error (spec failure semantics:
a domain error appearing only for some grid cells is an EvalError). -/
def evalCells (M : NumModel) (e : Expr) : List ℚ → List ℚ → Except String (List ℚ)
  | xv :: xs, yv :: ys =>
      match evalS M e xv yv, evalCells M e xs ys with
      | .ok v, .ok vs => .ok (v :: vs)
      | .error m, _ => .error m
      | _, .error m => .error m
  | _, _ => .ok []

/-- Element-wise evaluation over the full coordinate grids, row by row. -/
def evalRows (M : NumModel) (e : Expr) :
    List (List ℚ) → List (List ℚ) → Except String (List (List ℚ))
  | r :: rs, s :: ss =>
      match evalCells M e r s, evalRows M e rs ss with
      | .ok g, .ok gs => .ok (g :: gs)
      | .error m, _ => .error m
      | _, .error m => .error m
  | _, _ => .ok []

/-- Modelled from the spec: the grid mode of the compiled evaluator
(spec section 4.2 step 4 and section 9, third note), standing in for
f_func(X, Y) at src/app.py line 72: an expression that mentions neither
variable produces a bare scalar, otherwise element-wise evaluation. -/
def np_apply (M : NumModel) (e : Expr) (X Y : List (List ℚ)) :
    Except String NpVal :=
  if isConst e then
    match evalS M e 0 0 with
    | .ok v => .ok (.scalar v)
    | .error m => .error m
  else
    match evalRows M e X Y with
    | .ok g => .ok (.grid g)
    | .error m => .error m

/-- Rendering of a function name. -/
def renderFn : FnName → String
  | .sin => "sin"
  | .cos => "cos"
  | .tan => "tan"
  | .exp => "exp"
  | .log => "log"
  | .sqrt => "sqrt"
  | .abs => "abs"

/-- Modelled from the spec: the display-ready rendering of an
expression (spec section 4.2 step 5), standing in for the library
typesetting call at src/app.py line 77.  The exact typography is
presentation detail; what matters for the claims is that it is a pure
function of the expression. -/
def render : Expr → String
  | .num q => "(" ++ toString q.num ++ "/" ++ toString q.den ++ ")"
  | .var .x => "x"
  | .var .y => "y"
  | .add a b => "(" ++ render a ++ " + " ++ render b ++ ")"
  | .sub a b => "(" ++ render a ++ " - " ++ render b ++ ")"
  | .mul a b => "(" ++ render a ++ " * " ++ render b ++ ")"
  | .div a b => "(" ++ render a ++ " / " ++ render b ++ ")"
  | .neg a => "(-" ++ render a ++ ")"
  | .pow a b => "(" ++ render a ++ "^" ++ render b ++ ")"
  | .call f a => renderFn f ++ "(" ++ render a ++ ")"

/-- The complete successful result of the analysis: coordinate grids,
elevation grid, the three scalars at the query point, and the three
rendered strings (the non-None fields of the tuple returned at
src/app.py line 77; spec section 3, EvaluationResult). -/
structure AnalysisBundle where
  Xg : List (List ℚ)
  Yg : List (List ℚ)
  Zg : List (List ℚ)
  z0 : ℚ
  fx0 : ℚ
  fy0 : ℚ
  latex_f : String
  latex_fx : String
  latex_fy : String

/-- Turn the grid-mode result into the elevation grid exactly as
src/app.py lines 74-75 do: a bare scalar is broadcast with
np.full_like over the X mesh, an array is kept as is. -/
def gridOf : NpVal → List (List ℚ)
  | .scalar q => np_full_like meshX q
  | .grid g => g

/-- The body of the try block of process_function (src/app.py lines
55-77): parse, differentiate both ways, evaluate the three scalars at
the query point, evaluate the grid, broadcast a scalar grid result,
render the three strings.  Any failure escapes as the exception the
except clause will catch. -/
def process_core (M : NumModel) (formula_str : String) (x_input y_input : ℚ) :
    Except String AnalysisBundle :=
  match sympify formula_str with
  | .error m => .error m
  | .ok expr =>
    match evalS M expr x_input y_input with
    | .error m => .error m
    | .ok z_val =>
      match evalS M (diffE expr .x) x_input y_input with
      | .error m => .error m
      | .ok fx_val =>
        match evalS M (diffE expr .y) x_input y_input with
        | .error m => .error m
        | .ok fy_val =>
          match np_apply M expr meshX meshY with
          | .error m => .error m
          | .ok Zv =>
            .ok ⟨meshX, meshY, gridOf Zv, z_val, fx_val, fy_val,
                 render expr, render (diffE expr .x), render (diffE expr .y)⟩

/-- The ten-component return value of process_function: each numeric or
string output is Optional, plus the error message slot (src/app.py
returns the 10-tuple at line 77 on success and at line 80 on failure). -/
structure PyReturn where
  Xg : Option (List (List ℚ))
  Yg : Option (List (List ℚ))
  Zg : Option (List (List ℚ))
  z0 : Option ℚ
  fx0 : Option ℚ
  fy0 : Option ℚ
  latex_f : Option String
  latex_fx : Option String
  latex_fy : Option String
  error_msg : Option String

/-- process_function (src/app.py lines 54-80): run the try block; on
success return every output and no error (line 77), on any exception
return no outputs and the error message alone (line 80). -/
def process_function (M : NumModel) (formula_str : String) (x_input y_input : ℚ) :
    PyReturn :=
  match process_core M formula_str x_input y_input with
  | .ok b =>
      ⟨some b.Xg, some b.Yg, some b.Zg, some b.z0, some b.fx0, some b.fy0,
       some b.latex_f, some b.latex_fx, some b.latex_fy, none⟩
  | .error m =>
      ⟨none, none, none, none, none, none, none, none, none, some m⟩

/-- Squared gradient magnitude; src/app.py line 125 computes
np.sqrt(fx**2 + fy**2), the square root of this quantity. -/
def grad_mag_sq (fx fy : ℚ) : ℚ := fx ^ 2 + fy ^ 2

/-- The steepness classification of src/app.py lines 128-131: flat land
(critical point) when the gradient magnitude sqrt(fx^2 + fy^2) is
strictly below 0.1, steep terrain otherwise.  Stated on the square to
stay within the rationals; the claim-level theorem proves this equal to
the source's comparison of the real square root against 0.1. -/
def classify_flat (fx fy : ℚ) : Bool := grad_mag_sq fx fy < 1 / 100

/-- Expressions whose numeric evaluation can never fail: no division,
no partial functions, powers only by constant nonnegative integer
exponents.  Used to discharge success obligations for the polynomial
preset formulas. -/
def totalFn : FnName → Bool
  | .sin => true
  | .cos => true
  | .tan => true
  | .exp => true
  | .log => false
  | .sqrt => false
  | .abs => true

/-- See totalFn: a conservative syntactic guarantee of evaluation
success. -/
def totalE : Expr → Bool
  | .num _ => true
  | .var _ => true
  | .add a b => totalE a && totalE b
  | .sub a b => totalE a && totalE b
  | .mul a b => totalE a && totalE b
  | .div _ _ => false
  | .neg a => totalE a
  | .pow a b =>
      totalE a &&
        match b with
        | .num q => decide (q.den = 1) && decide (0 ≤ q.num)
        | _ => false
  | .call f a => totalFn f && totalE a

/-! Helper lemmas. -/

theorem mulS_zero_right (a : Expr) : mulS a (.num 0) = .num 0 := by
  cases a <;> simp [mulS]

theorem mulS_zero_left (b : Expr) : mulS (.num 0) b = .num 0 := by
  cases b <;> simp [mulS]

theorem divS_zero_left (b : Expr) : divS (.num 0) b = .num 0 := by
  cases b <;> simp [divS]

/-- The derivative with respect to a variable the expression does not
mention collapses, by the automatic simplifications, to the literal
zero expression, exactly as the symbolic library returns 0. -/
theorem diffE_of_not_usesVar (v : Var) (e : Expr) (h : usesVar v e = false) :
    diffE e v = .num 0 := by
  induction e with
  | num q => simp [diffE]
  | var w => simp [usesVar] at h; simp [diffE, h]
  | add a b iha ihb =>
      simp [usesVar] at h
      simp [diffE, iha h.1, ihb h.2, addS]
  | sub a b iha ihb =>
      simp [usesVar] at h
      simp [diffE, iha h.1, ihb h.2, subS]
  | mul a b iha ihb =>
      simp [usesVar] at h
      simp [diffE, iha h.1, ihb h.2, mulS_zero_left, mulS_zero_right, addS]
  | div a b iha ihb =>
      simp [usesVar] at h
      simp [diffE, iha h.1, ihb h.2, mulS_zero_left, mulS_zero_right, subS,
        divS_zero_left]
  | neg a iha =>
      simp [usesVar] at h
      simp [diffE, iha h, negS]
  | pow a b iha ihb =>
      simp [usesVar] at h
      simp [diffE, h.2, iha h.1, mulS_zero_right]
  | call f a iha =>
      simp [usesVar] at h
      simp [diffE, iha h, mulS_zero_left]

/-- Scalar evaluation of an expression mentioning neither variable does
not depend on the query point. -/
theorem evalS_const (M : NumModel) (e : Expr) (hx : usesVar .x e = false)
    (hy : usesVar .y e = false) (a b a' b' : ℚ) :
    evalS M e a b = evalS M e a' b' := by
  induction e with
  | num q => simp [evalS]
  | var w => cases w <;> simp [usesVar] at hx hy
  | add p q ihp ihq =>
      simp [usesVar] at hx hy
      simp [evalS, ihp hx.1 hy.1, ihq hx.2 hy.2]
  | sub p q ihp ihq =>
      simp [usesVar] at hx hy
      simp [evalS, ihp hx.1 hy.1, ihq hx.2 hy.2]
  | mul p q ihp ihq =>
      simp [usesVar] at hx hy
      simp [evalS, ihp hx.1 hy.1, ihq hx.2 hy.2]
  | div p q ihp ihq =>
      simp [usesVar] at hx hy
      simp [evalS, ihp hx.1 hy.1, ihq hx.2 hy.2]
  | neg p ihp =>
      simp [usesVar] at hx hy
      simp [evalS, ihp hx hy]
  | pow p q ihp ihq =>
      simp [usesVar] at hx hy
      simp [evalS, ihp hx.1 hy.1, ihq hx.2 hy.2]
  | call f p ihp =>
      simp [usesVar] at hx hy
      simp [evalS, ihp hx hy]

/-- A syntactically total expression evaluates successfully at every
point, under every interpretation. -/
theorem evalS_total (e : Expr) (h : totalE e = true) (M : NumModel) (a b : ℚ) :
    ∃ v, evalS M e a b = .ok v := by
  induction e with
  | num q => exact ⟨q, rfl⟩
  | var w =>
      cases w with
      | x => exact ⟨a, rfl⟩
      | y => exact ⟨b, rfl⟩
  | add p q ihp ihq =>
      simp [totalE] at h
      obtain ⟨u, hu⟩ := ihp h.1
      obtain ⟨v, hv⟩ := ihq h.2
      exact ⟨u + v, by simp [evalS, hu, hv]⟩
  | sub p q ihp ihq =>
      simp [totalE] at h
      obtain ⟨u, hu⟩ := ihp h.1
      obtain ⟨v, hv⟩ := ihq h.2
      exact ⟨u - v, by simp [evalS, hu, hv]⟩
  | mul p q ihp ihq =>
      simp [totalE] at h
      obtain ⟨u, hu⟩ := ihp h.1
      obtain ⟨v, hv⟩ := ihq h.2
      exact ⟨u * v, by simp [evalS, hu, hv]⟩
  | div p q ihp ihq => simp [totalE] at h
  | neg p ihp =>
      simp [totalE] at h
      obtain ⟨u, hu⟩ := ihp h
      exact ⟨-u, by simp [evalS, hu]⟩
  | pow p q ihp ihq =>
      cases q with
      | num qq =>
          simp [totalE] at h
          obtain ⟨u, hu⟩ := ihp h.1
          refine ⟨u ^ qq.num, ?_⟩
          simp [evalS, hu, powEval, h.2.1, not_lt.mpr h.2.2]
      | var w => simp [totalE] at h
      | add a b => simp [totalE] at h
      | sub a b => simp [totalE] at h
      | mul a b => simp [totalE] at h
      | div a b => simp [totalE] at h
      | neg a => simp [totalE] at h
      | pow a b => simp [totalE] at h
      | call f a => simp [totalE] at h
  | call f p ihp =>
      simp [totalE] at h
      obtain ⟨u, hu⟩ := ihp h.2
      cases f with
      | sin => exact ⟨M.sinV u, by simp [evalS, hu, applyFn]⟩
      | cos => exact ⟨M.cosV u, by simp [evalS, hu, applyFn]⟩
      | tan => exact ⟨M.tanV u, by simp [evalS, hu, applyFn]⟩
      | exp => exact ⟨M.expV u, by simp [evalS, hu, applyFn]⟩
      | log => simp [totalFn] at h
      | sqrt => simp [totalFn] at h
      | abs => exact ⟨|u|, by simp [evalS, hu, applyFn]⟩

theorem evalCells_total (e : Expr) (h : totalE e = true) (M : NumModel)
    (xs ys : List ℚ) : ∃ vs, evalCells M e xs ys = .ok vs := by
  induction xs generalizing ys with
  | nil => exact ⟨[], rfl⟩
  | cons xv xs ih =>
      cases ys with
      | nil => exact ⟨[], rfl⟩
      | cons yv ys =>
          obtain ⟨v, hv⟩ := evalS_total e h M xv yv
          obtain ⟨vs, hvs⟩ := ih ys
          exact ⟨v :: vs, by simp [evalCells, hv, hvs]⟩

theorem evalRows_total (e : Expr) (h : totalE e = true) (M : NumModel)
    (X Y : List (List ℚ)) : ∃ g, evalRows M e X Y = .ok g := by
  induction X generalizing Y with
  | nil => exact ⟨[], rfl⟩
  | cons r rs ih =>
      cases Y with
      | nil => exact ⟨[], rfl⟩
      | cons s ss =>
          obtain ⟨g, hg⟩ := evalCells_total e h M r s
          obtain ⟨gs, hgs⟩ := ih ss
          exact ⟨g :: gs, by simp [evalRows, hg, hgs]⟩

theorem np_apply_total (e : Expr) (h : totalE e = true) (M : NumModel)
    (X Y : List (List ℚ)) : ∃ Zv, np_apply M e X Y = .ok Zv := by
  unfold np_apply
  cases hc : isConst e with
  | true =>
      obtain ⟨v, hv⟩ := evalS_total e h M 0 0
      exact ⟨.scalar v, by simp [hv]⟩
  | false =>
      obtain ⟨g, hg⟩ := evalRows_total e h M X Y
      exact ⟨.grid g, by simp [hg]⟩

theorem evalCells_ok_length (M : NumModel) (e : Expr) (xs ys : List ℚ)
    (vs : List ℚ) (h : evalCells M e xs ys = .ok vs) :
    vs.length = min xs.length ys.length := by
  induction xs generalizing ys vs with
  | nil =>
      simp [evalCells] at h
      subst h
      simp
  | cons xv xs ih =>
      cases ys with
      | nil =>
          simp [evalCells] at h
          subst h
          simp
      | cons yv ys =>
          simp only [evalCells] at h
          cases hv : evalS M e xv yv with
          | error m => simp [hv] at h
          | ok v =>
              cases hvs : evalCells M e xs ys with
              | error m => simp [hv, hvs] at h
              | ok vs' =>
                  simp [hv, hvs] at h
                  subst h
                  simp [List.length_cons, ih ys vs' hvs]
                  omega

theorem evalCells_ok_getD (M : NumModel) (e : Expr) (xs ys : List ℚ)
    (vs : List ℚ) (h : evalCells M e xs ys = .ok vs) (i : Nat)
    (hi : i < vs.length) :
    evalS M e (xs.getD i 0) (ys.getD i 0) = .ok (vs.getD i 0) := by
  induction xs generalizing ys vs i with
  | nil =>
      simp [evalCells] at h
      subst h
      simp at hi
  | cons xv xs ih =>
      cases ys with
      | nil =>
          simp [evalCells] at h
          subst h
          simp at hi
      | cons yv ys =>
          simp only [evalCells] at h
          cases hv : evalS M e xv yv with
          | error m => simp [hv] at h
          | ok v =>
              cases hvs : evalCells M e xs ys with
              | error m => simp [hv, hvs] at h
              | ok vs' =>
                  simp [hv, hvs] at h
                  subst h
                  cases i with
                  | zero => simpa using hv
                  | succ i =>
                      simp only [List.getD_cons_succ]
                      exact ih ys vs' hvs i (by simpa using hi)

theorem evalRows_ok_length (M : NumModel) (e : Expr) (X Y : List (List ℚ))
    (g : List (List ℚ)) (h : evalRows M e X Y = .ok g) :
    g.length = min X.length Y.length := by
  induction X generalizing Y g with
  | nil =>
      simp [evalRows] at h
      subst h
      simp
  | cons r rs ih =>
      cases Y with
      | nil =>
          simp [evalRows] at h
          subst h
          simp
      | cons s ss =>
          simp only [evalRows] at h
          cases hv : evalCells M e r s with
          | error m => simp [hv] at h
          | ok v =>
              cases hvs : evalRows M e rs ss with
              | error m => simp [hv, hvs] at h
              | ok gs =>
                  simp [hv, hvs] at h
                  subst h
                  simp [List.length_cons, ih ss gs hvs]
                  omega

theorem evalRows_ok_getD (M : NumModel) (e : Expr) (X Y : List (List ℚ))
    (g : List (List ℚ)) (h : evalRows M e X Y = .ok g) (i : Nat)
    (hi : i < g.length) :
    evalCells M e (X.getD i []) (Y.getD i []) = .ok (g.getD i []) := by
  induction X generalizing Y g i with
  | nil =>
      simp [evalRows] at h
      subst h
      simp at hi
  | cons r rs ih =>
      cases Y with
      | nil =>
          simp [evalRows] at h
          subst h
          simp at hi
      | cons s ss =>
          simp only [evalRows] at h
          cases hv : evalCells M e r s with
          | error m => simp [hv] at h
          | ok v =>
              cases hvs : evalRows M e rs ss with
              | error m => simp [hv, hvs] at h
              | ok gs =>
                  simp [hv, hvs] at h
                  subst h
                  cases i with
                  | zero => simpa using hv
                  | succ i =>
                      simp only [List.getD_cons_succ]
                      exact ih ss gs hvs i (by simpa using hi)

theorem getD_map_of_lt {α β : Type} (f : α → β) (l : List α) (i : Nat)
    (d : β) (d' : α) (h : i < l.length) :
    (l.map f).getD i d = f (l.getD i d') := by
  induction l generalizing i with
  | nil => simp at h
  | cons a l ih =>
      cases i with
      | zero => simp
      | succ i =>
          simp only [List.map_cons, List.getD_cons_succ]
          exact ih i (by simpa using h)

theorem x_range_length : x_range.length = 100 := by
  simp [x_range, np_linspace]

theorem y_range_length : y_range.length = 100 := by
  simp [y_range, np_linspace]

theorem meshX_length : meshX.length = 100 := by
  simp [meshX, y_range_length]

theorem meshY_length : meshY.length = 100 := by
  simp [meshY, y_range_length]

theorem meshX_getD (i : Nat) (h : i < 100) : meshX.getD i [] = x_range := by
  unfold meshX
  rw [getD_map_of_lt (fun _ => x_range) y_range i [] 0 (by rw [y_range_length]; exact h)]

theorem meshY_getD (i : Nat) (h : i < 100) :
    meshY.getD i [] = x_range.map (fun _ => y_range.getD i 0) := by
  unfold meshY
  rw [getD_map_of_lt (fun yv => x_range.map fun _ => yv) y_range i [] 0
    (by rw [y_range_length]; exact h)]

theorem x_range_getD (j : Nat) (h : j < 100) :
    x_range.getD j 0 = -6 + 12 * (j : ℚ) / 99 := by
  unfold x_range np_linspace
  rw [getD_map_of_lt _ (List.range 100) j 0 0 (by simpa using h)]
  rw [List.getD_eq_getElem (List.range 100) 0 (by simpa using h)]
  simp only [List.getElem_range]
  norm_num

theorem y_range_getD (j : Nat) (h : j < 100) :
    y_range.getD j 0 = -6 + 12 * (j : ℚ) / 99 := by
  unfold y_range np_linspace
  rw [getD_map_of_lt _ (List.range 100) j 0 0 (by simpa using h)]
  rw [List.getD_eq_getElem (List.range 100) 0 (by simpa using h)]
  simp only [List.getElem_range]
  norm_num

theorem process_core_ok (M : NumModel) (s : String) (x0 y0 : ℚ)
    (b : AnalysisBundle) (h : process_core M s x0 y0 = .ok b) :
    ∃ e Zv, sympify s = .ok e ∧
      evalS M e x0 y0 = .ok b.z0 ∧
      evalS M (diffE e .x) x0 y0 = .ok b.fx0 ∧
      evalS M (diffE e .y) x0 y0 = .ok b.fy0 ∧
      np_apply M e meshX meshY = .ok Zv ∧
      b = ⟨meshX, meshY, gridOf Zv, b.z0, b.fx0, b.fy0,
           render e, render (diffE e .x), render (diffE e .y)⟩ := by
  unfold process_core at h
  cases hs : sympify s with
  | error m => simp only [hs] at h; cases h
  | ok e =>
      simp only [hs] at h
      cases hz : evalS M e x0 y0 with
      | error m => simp only [hz] at h; cases h
      | ok zv =>
          simp only [hz] at h
          cases hx : evalS M (diffE e .x) x0 y0 with
          | error m => simp only [hx] at h; cases h
          | ok fxv =>
              simp only [hx] at h
              cases hy : evalS M (diffE e .y) x0 y0 with
              | error m => simp only [hy] at h; cases h
              | ok fyv =>
                  simp only [hy] at h
                  cases hZ : np_apply M e meshX meshY with
                  | error m => simp only [hZ] at h; cases h
                  | ok Zv =>
                      simp only [hZ, Except.ok.injEq] at h
                      subst h
                      exact ⟨e, Zv, rfl, hz, hx, hy, hZ, rfl⟩

theorem process_core_build (M : NumModel) (s : String) (x0 y0 : ℚ)
    (e : Expr) (zv fxv fyv : ℚ) (Zv : NpVal)
    (hs : sympify s = .ok e) (hz : evalS M e x0 y0 = .ok zv)
    (hx : evalS M (diffE e .x) x0 y0 = .ok fxv)
    (hy : evalS M (diffE e .y) x0 y0 = .ok fyv)
    (hZ : np_apply M e meshX meshY = .ok Zv) :
    process_core M s x0 y0 =
      .ok ⟨meshX, meshY, gridOf Zv, zv, fxv, fyv,
           render e, render (diffE e .x), render (diffE e .y)⟩ := by
  unfold process_core
  simp only [hs, hz, hx, hy, hZ]

theorem process_core_err_of_evalS (M : NumModel) (s : String) (x0 y0 : ℚ)
    (e : Expr) (m : String) (hs : sympify s = .ok e)
    (hz : evalS M e x0 y0 = .error m) :
    process_core M s x0 y0 = .error m := by
  unfold process_core
  simp only [hs, hz]

theorem process_core_err_of_parse (M : NumModel) (s : String) (x0 y0 : ℚ)
    (m : String) (hs : sympify s = .error m) :
    process_core M s x0 y0 = .error m := by
  unfold process_core
  simp only [hs]

theorem process_function_of_core_ok (M : NumModel) (s : String) (x0 y0 : ℚ)
    (b : AnalysisBundle) (h : process_core M s x0 y0 = .ok b) :
    process_function M s x0 y0 =
      ⟨some b.Xg, some b.Yg, some b.Zg, some b.z0, some b.fx0, some b.fy0,
       some b.latex_f, some b.latex_fx, some b.latex_fy, none⟩ := by
  unfold process_function
  simp only [h]

theorem process_function_of_core_err (M : NumModel) (s : String) (x0 y0 : ℚ)
    (m : String) (h : process_core M s x0 y0 = .error m) :
    process_function M s x0 y0 =
      ⟨none, none, none, none, none, none, none, none, none, some m⟩ := by
  unfold process_function
  simp only [h]

theorem evalS_const_x (M : NumModel) (e : Expr) (h : usesVar .x e = false)
    (a a' b : ℚ) : evalS M e a b = evalS M e a' b := by
  induction e with
  | num q => simp [evalS]
  | var w =>
      cases w with
      | x => simp [usesVar] at h
      | y => simp [evalS]
  | add p q ihp ihq =>
      simp [usesVar] at h
      simp [evalS, ihp h.1, ihq h.2]
  | sub p q ihp ihq =>
      simp [usesVar] at h
      simp [evalS, ihp h.1, ihq h.2]
  | mul p q ihp ihq =>
      simp [usesVar] at h
      simp [evalS, ihp h.1, ihq h.2]
  | div p q ihp ihq =>
      simp [usesVar] at h
      simp [evalS, ihp h.1, ihq h.2]
  | neg p ihp =>
      simp [usesVar] at h
      simp [evalS, ihp h]
  | pow p q ihp ihq =>
      simp [usesVar] at h
      simp [evalS, ihp h.1, ihq h.2]
  | call f p ihp =>
      simp [usesVar] at h
      simp [evalS, ihp h]

theorem evalS_const_y (M : NumModel) (e : Expr) (h : usesVar .y e = false)
    (a b b' : ℚ) : evalS M e a b = evalS M e a b' := by
  induction e with
  | num q => simp [evalS]
  | var w =>
      cases w with
      | x => simp [evalS]
      | y => simp [usesVar] at h
  | add p q ihp ihq =>
      simp [usesVar] at h
      simp [evalS, ihp h.1, ihq h.2]
  | sub p q ihp ihq =>
      simp [usesVar] at h
      simp [evalS, ihp h.1, ihq h.2]
  | mul p q ihp ihq =>
      simp [usesVar] at h
      simp [evalS, ihp h.1, ihq h.2]
  | div p q ihp ihq =>
      simp [usesVar] at h
      simp [evalS, ihp h.1, ihq h.2]
  | neg p ihp =>
      simp [usesVar] at h
      simp [evalS, ihp h]
  | pow p q ihp ihq =>
      simp [usesVar] at h
      simp [evalS, ihp h.1, ihq h.2]
  | call f p ihp =>
      simp [usesVar] at h
      simp [evalS, ihp h]

theorem np_full_like_getD (X : List (List ℚ)) (z : ℚ) (i j : Nat)
    (hi : i < X.length) (hj : j < (X.getD i []).length) :
    ((np_full_like X z).getD i []).getD j 0 = z := by
  unfold np_full_like
  rw [getD_map_of_lt (fun row => row.map (fun _ => z)) X i [] [] hi]
  rw [getD_map_of_lt (fun _ => z) (X.getD i []) j 0 0 hj]

theorem process_grid_nonconst (M : NumModel) (s : String) (x0 y0 : ℚ)
    (e : Expr) (b : AnalysisBundle) (hs : sympify s = .ok e)
    (hc : isConst e = false) (hb : process_core M s x0 y0 = .ok b) :
    ∃ g, evalRows M e meshX meshY = .ok g ∧ b.Zg = g ∧ b.Xg = meshX ∧
      b.Yg = meshY := by
  obtain ⟨e', Zv, hs', hz, hx, hy, hZ, hbb⟩ := process_core_ok M s x0 y0 b hb
  rw [hs] at hs'
  cases hs'
  unfold np_apply at hZ
  rw [hc] at hZ
  simp only [Bool.false_eq_true, if_false] at hZ
  cases hg : evalRows M e meshX meshY with
  | error m => rw [hg] at hZ; cases hZ
  | ok g =>
      rw [hg] at hZ
      simp only [Except.ok.injEq] at hZ
      subst hZ
      refine ⟨g, rfl, ?_, by rw [hbb], by rw [hbb]⟩
      rw [hbb]
      exact rfl

theorem grid_cell_val (M : NumModel) (e : Expr) (g : List (List ℚ))
    (i j : Nat) (hg : evalRows M e meshX meshY = .ok g)
    (hi : i < 100) (hj : j < 100) :
    evalS M e (x_range.getD j 0) (y_range.getD i 0)
      = .ok ((g.getD i []).getD j 0) := by
  have hlen : g.length = 100 := by
    rw [evalRows_ok_length M e meshX meshY g hg, meshX_length, meshY_length]
    simp
  have hrow := evalRows_ok_getD M e meshX meshY g hg i (by rw [hlen]; exact hi)
  have hrlen : (g.getD i []).length = 100 := by
    rw [evalCells_ok_length M e (meshX.getD i []) (meshY.getD i [])
      (g.getD i []) hrow, meshX_getD i hi, meshY_getD i hi, x_range_length]
    simp [x_range_length]
  have hcell := evalCells_ok_getD M e (meshX.getD i []) (meshY.getD i [])
    (g.getD i []) hrow j (by rw [hrlen]; exact hj)
  rw [meshX_getD i hi, meshY_getD i hi] at hcell
  rw [getD_map_of_lt (fun _ => y_range.getD i 0) x_range j 0 0
    (by rw [x_range_length]; exact hj)] at hcell
  exact hcell

/-! Claim theorems. -/

/-- C1: for every formula string and every query point, process_function
never propagates an exception: it returns either a complete bundle in
which every field (coordinate grids, elevation grid, z0, fx0, fy0, three
rendered strings) is present and the error slot is empty, or a single
error outcome in which no numeric field is present. -/
theorem claim_C1 (M : NumModel) (s : String) (x0 y0 : ℚ) :
    (∃ X Y Z z fx fy lf lfx lfy,
      process_function M s x0 y0 =
        ⟨some X, some Y, some Z, some z, some fx, some fy,
         some lf, some lfx, some lfy, none⟩) ∨
    (∃ m, process_function M s x0 y0 =
        ⟨none, none, none, none, none, none, none, none, none, some m⟩) := by
  cases h : process_core M s x0 y0 with
  | ok b =>
      exact .inl ⟨b.Xg, b.Yg, b.Zg, b.z0, b.fx0, b.fy0, b.latex_f, b.latex_fx,
        b.latex_fy, process_function_of_core_ok M s x0 y0 b h⟩
  | error m => exact .inr ⟨m, process_function_of_core_err M s x0 y0 m h⟩

/-- C2: for every formula that parses, if numeric evaluation at the
query point fails (division by zero, domain error, complex result -
the outcomes that are not finite real numbers), process_function
returns the single error outcome with no numeric field, rather than
embedding such a value in a success result.  The witness instantiates
this at formula log(x) with x0 = -1. -/
theorem claim_C2 (M : NumModel) (s : String) (e : Expr) (x0 y0 : ℚ) (m : String)
    (h1 : sympify s = .ok e) (h2 : evalS M e x0 y0 = .error m) :
    process_function M s x0 y0 =
      ⟨none, none, none, none, none, none, none, none, none, some m⟩ :=
  process_function_of_core_err M s x0 y0 m
    (process_core_err_of_evalS M s x0 y0 e m h1 h2)

/-- Witness for C2: formula log(x) evaluated at x0 = -1 yields the
error outcome. -/
theorem claim_C2_witness :
    sympify "log(x)" = .ok (.call .log (.var .x)) ∧
    evalS M0 (.call .log (.var .x)) (-1) 0 = .error "log domain error" ∧
    process_function M0 "log(x)" (-1) 0 =
      ⟨none, none, none, none, none, none, none, none, none,
       some "log domain error"⟩ :=
  ⟨rfl, by norm_num [evalS, applyFn],
   claim_C2 M0 "log(x)" (.call .log (.var .x)) (-1) 0 "log domain error" rfl
     (by norm_num [evalS, applyFn])⟩

/-- C5: the compile step rejects, at parse time and with no numeric
outputs, malformed syntax (x +* y), unmatched grouping, a third free
variable beyond x and y, and identifiers outside the allow-listed
function set; a rejected formula produces the all-None error return. -/
theorem claim_C5 :
    (∃ m, sympify "x +* y" = .error m) ∧
    (∃ m, sympify "(x + y" = .error m) ∧
    (∃ m, sympify "x + z" = .error m) ∧
    (∃ m, sympify "foo(x)" = .error m) ∧
    (∀ (M : NumModel) (x0 y0 : ℚ), ∃ m,
      process_function M "x +* y" x0 y0 =
        ⟨none, none, none, none, none, none, none, none, none, some m⟩) := by
  refine ⟨⟨_, rfl⟩, ⟨_, rfl⟩, ⟨_, rfl⟩, ⟨_, rfl⟩, ?_⟩
  intro M x0 y0
  exact ⟨"unexpected token", process_function_of_core_err M "x +* y" x0 y0 _
    (process_core_err_of_parse M "x +* y" x0 y0 _ rfl)⟩

/-- C8: the steepness classification marks the point as flat land (a
critical point) exactly when the gradient magnitude sqrt(fx^2 + fy^2)
is strictly less than 0.1; any magnitude at least 0.1 is classified as
sloped. -/
theorem claim_C8 (fx fy : ℚ) :
    classify_flat fx fy = true ↔
      Real.sqrt ((fx : ℝ) ^ 2 + (fy : ℝ) ^ 2) < 1 / 10 := by
  rw [Real.sqrt_lt' (by norm_num : (0 : ℝ) < 1 / 10)]
  have hcast : ((fx : ℝ) ^ 2 + (fy : ℝ) ^ 2) = ((fx ^ 2 + fy ^ 2 : ℚ) : ℝ) := by
    push_cast
    ring
  rw [hcast, show ((1 : ℝ) / 10) ^ 2 = ((1 / 100 : ℚ) : ℝ) by norm_num]
  rw [Rat.cast_lt]
  simp [classify_flat, grad_mag_sq]

/-- C9: analysis is deterministic: two calls of process_function with
identical inputs return identical scalar outputs z0, fx0, fy0 and
identical rendered strings.  In the embedding the pipeline is a pure
function of (formula, x0, y0) and the numeric interpretation, which is
exactly the statelessness the source exhibits. -/
theorem claim_C9 (M : NumModel) (s : String) (x0 y0 : ℚ) (r₁ r₂ : PyReturn)
    (h₁ : r₁ = process_function M s x0 y0) (h₂ : r₂ = process_function M s x0 y0) :
    r₁.z0 = r₂.z0 ∧ r₁.fx0 = r₂.fx0 ∧ r₁.fy0 = r₂.fy0 ∧
    r₁.latex_f = r₂.latex_f ∧ r₁.latex_fx = r₂.latex_fx ∧
    r₁.latex_fy = r₂.latex_fy := by
  subst h₁
  subst h₂
  exact ⟨rfl, rfl, rfl, rfl, rfl, rfl⟩

/-- Witness for C9 at the concrete input (formula 10, point (1,1)). -/
theorem claim_C9_witness :
    (process_function M0 "10" 1 1).z0 = (process_function M0 "10" 1 1).z0 ∧
    (process_function M0 "10" 1 1).fx0 = (process_function M0 "10" 1 1).fx0 ∧
    (process_function M0 "10" 1 1).fy0 = (process_function M0 "10" 1 1).fy0 ∧
    (process_function M0 "10" 1 1).latex_f = (process_function M0 "10" 1 1).latex_f ∧
    (process_function M0 "10" 1 1).latex_fx = (process_function M0 "10" 1 1).latex_fx ∧
    (process_function M0 "10" 1 1).latex_fy = (process_function M0 "10" 1 1).latex_fy :=
  claim_C9 M0 "10" 1 1 (process_function M0 "10" 1 1) (process_function M0 "10" 1 1) rfl rfl

/-- Counterexample to C6 as stated: the formula 1/x uses only the
variable x, yet analysis does not succeed at the query point (0, 0) -
scalar evaluation divides by zero and the error outcome is returned.
So "analysis succeeds" does not hold for every one-variable formula. -/
theorem claim_C6_counterexample :
    sympify "1/x" = .ok (.div (.num 1) (.var .x)) ∧
    usesVar .y (.div (.num 1) (.var .x)) = false ∧
    process_function M0 "1/x" 0 0 =
      ⟨none, none, none, none, none, none, none, none, none,
       some "division by zero"⟩ :=
  ⟨rfl, rfl,
   process_function_of_core_err M0 "1/x" 0 0 _
     (process_core_err_of_evalS M0 "1/x" 0 0 (.div (.num 1) (.var .x)) _ rfl
       (by norm_num [evalS]))⟩

/-- C6 (amended): for every expression that does not use one of the two
variables, the partial derivative with respect to that absent variable
is the literal zero expression; hence in every successful analysis the
corresponding scalar derivative output is exactly 0. -/
theorem claim_C6 :
    (∀ (v : Var) (e : Expr), usesVar v e = false → diffE e v = .num 0) ∧
    (∀ (M : NumModel) (s : String) (e : Expr) (x0 y0 : ℚ) (b : AnalysisBundle),
      sympify s = .ok e → usesVar .x e = false →
      process_core M s x0 y0 = .ok b → b.fx0 = 0) ∧
    (∀ (M : NumModel) (s : String) (e : Expr) (x0 y0 : ℚ) (b : AnalysisBundle),
      sympify s = .ok e → usesVar .y e = false →
      process_core M s x0 y0 = .ok b → b.fy0 = 0) := by
  refine ⟨diffE_of_not_usesVar, ?_, ?_⟩
  · intro M s e x0 y0 b hs hv hb
    obtain ⟨e', Zv, hs', hz, hx, hy, hZ, hbb⟩ := process_core_ok M s x0 y0 b hb
    rw [hs] at hs'
    cases hs'
    rw [diffE_of_not_usesVar .x e hv] at hx
    have hxx : (Except.ok 0 : Except String ℚ) = .ok b.fx0 := hx
    simpa using hxx.symm
  · intro M s e x0 y0 b hs hv hb
    obtain ⟨e', Zv, hs', hz, hx, hy, hZ, hbb⟩ := process_core_ok M s x0 y0 b hb
    rw [hs] at hs'
    cases hs'
    rw [diffE_of_not_usesVar .y e hv] at hy
    have hyy : (Except.ok 0 : Except String ℚ) = .ok b.fy0 := hy
    simpa using hyy.symm

/-- Witness for C6 (amended) at the concrete formula sin(x), whose
derivative in y is the zero expression and whose analysis at (0, 0)
succeeds with fy0 = 0. -/
theorem claim_C6_witness :
    usesVar .y (.call .sin (.var .x)) = false ∧
    (∃ b, process_core M0 "sin(x)" 0 0 = .ok b ∧ b.fy0 = 0) := by
  obtain ⟨Zv, hZv⟩ := np_apply_total (.call .sin (.var .x)) rfl M0 meshX meshY
  have hb := process_core_build M0 "sin(x)" 0 0 (.call .sin (.var .x))
    (M0.sinV 0) (M0.cosV 0) 0 Zv rfl rfl rfl rfl hZv
  exact ⟨rfl, ⟨_, hb,
    claim_C6.2.2 M0 "sin(x)" (.call .sin (.var .x)) 0 0 _ rfl rfl hb⟩⟩

/-- C7: on every successful analysis the coordinate grids are exactly
the fixed 100 by 100 mesh over [-6, 6] on both axes (both axes sampled
by np.linspace(-6, 6, 100), endpoints -6 and 6), identical for all
formulas and query points: the sampling domain does not depend on the
query point. -/
theorem claim_C7 (M : NumModel) (s : String) (x0 y0 : ℚ) (b : AnalysisBundle)
    (h : process_core M s x0 y0 = .ok b) :
    b.Xg = meshX ∧ b.Yg = meshY ∧
    meshX.length = 100 ∧ meshY.length = 100 ∧
    (∀ r ∈ meshX, r.length = 100) ∧ (∀ r ∈ meshY, r.length = 100) ∧
    x_range = np_linspace (-6) 6 100 ∧ y_range = np_linspace (-6) 6 100 ∧
    x_range.getD 0 0 = -6 ∧ x_range.getD 99 0 = 6 ∧
    y_range.getD 0 0 = -6 ∧ y_range.getD 99 0 = 6 := by
  obtain ⟨e, Zv, hs, hz, hx, hy, hZ, hbb⟩ := process_core_ok M s x0 y0 b h
  refine ⟨by rw [hbb], by rw [hbb], meshX_length, meshY_length, ?_, ?_, rfl, rfl,
    ?_, ?_, ?_, ?_⟩
  · intro r hr
    simp only [meshX, List.mem_map] at hr
    obtain ⟨a, _, hra⟩ := hr
    rw [← hra]
    exact x_range_length
  · intro r hr
    simp only [meshY, List.mem_map] at hr
    obtain ⟨a, _, hra⟩ := hr
    rw [← hra]
    simp [x_range_length]
  · rw [x_range_getD 0 (by norm_num)]
    norm_num
  · rw [x_range_getD 99 (by norm_num)]
    norm_num
  · rw [y_range_getD 0 (by norm_num)]
    norm_num
  · rw [y_range_getD 99 (by norm_num)]
    norm_num

/-- Witness for C7 at the concrete input (formula 10, point (0,0)). -/
theorem claim_C7_witness :
    (∃ b, process_core M0 "10" 0 0 = .ok b ∧ b.Xg = meshX ∧ b.Yg = meshY ∧
      meshX.length = 100 ∧ meshY.length = 100) := by
  have hb : process_core M0 "10" 0 0 =
      .ok ⟨meshX, meshY, np_full_like meshX 10, 10, 0, 0,
           render (.num 10), render (.num 0), render (.num 0)⟩ := rfl
  have hc := claim_C7 M0 "10" 0 0 _ hb
  exact ⟨_, hb, hc.1, hc.2.1, hc.2.2.1, hc.2.2.2.1⟩

theorem np_full_like_getD_length (X : List (List ℚ)) (z : ℚ) (i : Nat) :
    ((np_full_like X z).getD i []).length = (X.getD i []).length := by
  induction X generalizing i with
  | nil => simp [np_full_like]
  | cons r rs ih =>
      cases i with
      | zero => simp [np_full_like]
      | succ i =>
          simp only [np_full_like, List.map_cons, List.getD_cons_succ]
          exact ih i

/-- Counterexample to C4 as stated: the formula y is constant with
respect to one of the two variables (x), analysis succeeds, yet the
returned elevation grid does not carry one constant value replicated in
every entry: the (0,0) cell is -6 while the (1,0) cell is -6 + 12/99. -/
theorem claim_C4_counterexample :
    sympify "y" = .ok (.var .y) ∧
    usesVar .x (.var .y) = false ∧
    (∃ b, process_core M0 "y" 0 0 = .ok b ∧
      (b.Zg.getD 0 []).getD 0 0 = -6 ∧
      (b.Zg.getD 1 []).getD 0 0 = -6 + 12 / 99 ∧
      (b.Zg.getD 0 []).getD 0 0 ≠ (b.Zg.getD 1 []).getD 0 0) := by
  obtain ⟨Zv, hZv⟩ := np_apply_total (.var .y) rfl M0 meshX meshY
  have hb := process_core_build M0 "y" 0 0 (.var .y) 0 0 1 Zv rfl rfl rfl rfl hZv
  obtain ⟨g, hg, hZg, hXg, hYg⟩ :=
    process_grid_nonconst M0 "y" 0 0 (.var .y) _ rfl rfl hb
  have h00 := grid_cell_val M0 (.var .y) g 0 0 hg (by norm_num) (by norm_num)
  have h10 := grid_cell_val M0 (.var .y) g 1 0 hg (by norm_num) (by norm_num)
  have e00 : (g.getD 0 []).getD 0 0 = y_range.getD 0 0 := by
    simp only [evalS, Except.ok.injEq] at h00
    exact h00.symm
  have e10 : (g.getD 1 []).getD 0 0 = y_range.getD 1 0 := by
    simp only [evalS, Except.ok.injEq] at h10
    exact h10.symm
  refine ⟨rfl, rfl, _, hb, ?_, ?_, ?_⟩
  · rw [hZg, e00, y_range_getD 0 (by norm_num)]
    norm_num
  · rw [hZg, e10, y_range_getD 1 (by norm_num)]
    norm_num
  · rw [hZg, e00, e10, y_range_getD 0 (by norm_num), y_range_getD 1 (by norm_num)]
    norm_num

/-- C4 (amended): for every formula whose expression is constant with
respect to one or both variables, a successful grid-mode evaluation
returns an elevation grid of exactly the shape of the coordinate grids -
never a bare scalar or mis-shaped array.  When the expression is
constant in both variables the constant value (z0) is replicated in
every entry (for formula 10, every entry is 10); when it is constant
with respect to exactly one variable, values are replicated along that
variable's axis: within the sampled mesh, entries do not vary with the
absent variable. -/
theorem claim_C4 (M : NumModel) (s : String) (x0 y0 : ℚ) (e : Expr)
    (b : AnalysisBundle) (hs : sympify s = .ok e)
    (_hone : usesVar .x e = false ∨ usesVar .y e = false)
    (hb : process_core M s x0 y0 = .ok b) :
    (b.Zg.length = b.Xg.length ∧
     (∀ i, (b.Zg.getD i []).length = (b.Xg.getD i []).length)) ∧
    (isConst e = true →
      b.Zg = np_full_like b.Xg b.z0 ∧ ∀ row ∈ b.Zg, ∀ v ∈ row, v = b.z0) ∧
    (usesVar .x e = false → ∀ i j : Nat, i < 100 → j < 100 →
      (b.Zg.getD i []).getD j 0 = (b.Zg.getD i []).getD 0 0) ∧
    (usesVar .y e = false → ∀ i j : Nat, i < 100 → j < 100 →
      (b.Zg.getD i []).getD j 0 = (b.Zg.getD 0 []).getD j 0) := by
  cases hcst : isConst e with
  | true =>
      obtain ⟨e', Zv, hs', hz, hx, hy, hZ, hbb⟩ := process_core_ok M s x0 y0 b hb
      rw [hs] at hs'
      cases hs'
      -- the grid-mode application took the constant branch
      unfold np_apply at hZ
      rw [hcst] at hZ
      simp only [if_true] at hZ
      cases hv : evalS M e 0 0 with
      | error m => rw [hv] at hZ; cases hZ
      | ok v =>
          rw [hv] at hZ
          simp only [Except.ok.injEq] at hZ
          -- the scalar evaluated at the dummy point equals z0 at the query point
          have hxuse : usesVar .x e = false := by
            simp [isConst] at hcst
            exact hcst.1
          have hyuse : usesVar .y e = false := by
            simp [isConst] at hcst
            exact hcst.2
          have hvz : v = b.z0 := by
            have hcc := evalS_const M e hxuse hyuse 0 0 x0 y0
            rw [hv, hz] at hcc
            simpa using hcc
          subst hvz
          have hZg : b.Zg = np_full_like meshX b.z0 := by
            rw [hbb]
            rw [← hZ]
            rfl
          have hXg : b.Xg = meshX := by rw [hbb]
          refine ⟨⟨?_, ?_⟩, fun _ => ⟨by rw [hZg, hXg], ?_⟩, ?_, ?_⟩
          · rw [hZg, hXg]
            simp [np_full_like]
          · intro i
            rw [hZg, hXg]
            exact np_full_like_getD_length meshX b.z0 i
          · intro row hrow w hw
            rw [hZg] at hrow
            simp only [np_full_like, List.mem_map] at hrow
            obtain ⟨r, _, hrr⟩ := hrow
            rw [← hrr] at hw
            simp only [List.mem_map] at hw
            obtain ⟨u, _, huw⟩ := hw
            exact huw.symm
          · intro _ i j hi hj
            rw [hZg]
            rw [np_full_like_getD meshX b.z0 i j
                (by rw [meshX_length]; exact hi)
                (by rw [meshX_getD i hi, x_range_length]; exact hj),
              np_full_like_getD meshX b.z0 i 0
                (by rw [meshX_length]; exact hi)
                (by rw [meshX_getD i hi, x_range_length]; norm_num)]
          · intro _ i j hi hj
            rw [hZg]
            rw [np_full_like_getD meshX b.z0 i j
                (by rw [meshX_length]; exact hi)
                (by rw [meshX_getD i hi, x_range_length]; exact hj),
              np_full_like_getD meshX b.z0 0 j
                (by rw [meshX_length]; norm_num)
                (by rw [meshX_getD 0 (by norm_num), x_range_length]; exact hj)]
  | false =>
      obtain ⟨g, hg, hZg, hXg, hYg⟩ :=
        process_grid_nonconst M s x0 y0 e b hs hcst hb
      have hglen : g.length = 100 := by
        rw [evalRows_ok_length M e meshX meshY g hg, meshX_length, meshY_length]
        simp
      have hrowlen : ∀ i, i < 100 → (g.getD i []).length = 100 := by
        intro i hi
        have hrow := evalRows_ok_getD M e meshX meshY g hg i
          (by rw [hglen]; exact hi)
        rw [evalCells_ok_length M e (meshX.getD i []) (meshY.getD i [])
          (g.getD i []) hrow, meshX_getD i hi, meshY_getD i hi, x_range_length]
        simp [x_range_length]
      refine ⟨⟨?_, ?_⟩, ?_, ?_, ?_⟩
      · rw [hZg, hXg, hglen, meshX_length]
      · intro i
        by_cases hi : i < 100
        · rw [hZg, hXg, hrowlen i hi, meshX_getD i hi, x_range_length]
        · rw [hZg, hXg]
          rw [List.getD_eq_default g [] (by rw [hglen]; omega)]
          rw [List.getD_eq_default meshX [] (by rw [meshX_length]; omega)]
      · intro hcc
        exact Bool.noConfusion hcc
      · intro hx0 i j hi hj
        have h1 := grid_cell_val M e g i j hg hi hj
        have h0 := grid_cell_val M e g i 0 hg hi (by norm_num)
        have heq := evalS_const_x M e hx0 (x_range.getD j 0) (x_range.getD 0 0)
          (y_range.getD i 0)
        rw [h1, h0] at heq
        simp only [Except.ok.injEq] at heq
        rw [hZg]
        exact heq
      · intro hy0 i j hi hj
        have h1 := grid_cell_val M e g i j hg hi hj
        have h0 := grid_cell_val M e g 0 j hg (by norm_num) hj
        have heq := evalS_const_y M e hy0 (x_range.getD j 0) (y_range.getD i 0)
          (y_range.getD 0 0)
        rw [h1, h0] at heq
        simp only [Except.ok.injEq] at heq
        rw [hZg]
        exact heq

/-- Witness for C4 (amended) at the concrete formula sin(y), constant
with respect to x: its successful grid has the shape of the coordinate
grids and its row-0 entries agree across columns. -/
theorem claim_C4_witness :
    sympify "sin(y)" = .ok (.call .sin (.var .y)) ∧
    usesVar .x (.call .sin (.var .y)) = false ∧
    (∃ b, process_core M0 "sin(y)" 0 0 = .ok b ∧
      b.Zg.length = b.Xg.length ∧
      (b.Zg.getD 0 []).getD 1 0 = (b.Zg.getD 0 []).getD 0 0) := by
  obtain ⟨Zv, hZv⟩ := np_apply_total (.call .sin (.var .y)) rfl M0 meshX meshY
  have hb := process_core_build M0 "sin(y)" 0 0 (.call .sin (.var .y))
    (M0.sinV 0) 0 (M0.cosV 0) Zv rfl rfl rfl rfl hZv
  have hc := claim_C4 M0 "sin(y)" 0 0 (.call .sin (.var .y)) _ rfl
    (Or.inl rfl) hb
  exact ⟨rfl, rfl, _, hb, hc.1.1, hc.2.2.1 rfl 0 1 (by norm_num) (by norm_num)⟩

/-- C3: symbolic differentiation is exact on the preset formulas: for
100 - x**2 - y**2 the returned fx0 equals -2 x0 and fy0 equals -2 y0 at
every query point; for x**2 - y**2 + 50 at (1, 1), z0 = 50, fx0 = 2,
fy0 = -2, and the derived gradient magnitude equals sqrt 8. -/
theorem claim_C3 (M : NumModel) (x0 y0 : ℚ) :
    ((process_function M "100 - x**2 - y**2" x0 y0).fx0 = some (-2 * x0) ∧
     (process_function M "100 - x**2 - y**2" x0 y0).fy0 = some (-2 * y0)) ∧
    ((process_function M "x**2 - y**2 + 50" 1 1).z0 = some 50 ∧
     (process_function M "x**2 - y**2 + 50" 1 1).fx0 = some 2 ∧
     (process_function M "x**2 - y**2 + 50" 1 1).fy0 = some (-2)) ∧
    Real.sqrt ((grad_mag_sq 2 (-2) : ℚ) : ℝ) = Real.sqrt 8 := by
  have htot1 : totalE (.sub (.sub (.num 100) (.pow (.var .x) (.num 2)))
      (.pow (.var .y) (.num 2))) = true := rfl
  obtain ⟨zv, hz⟩ := evalS_total _ htot1 M x0 y0
  obtain ⟨Zv, hZv⟩ := np_apply_total _ htot1 M meshX meshY
  have hdx1 : diffE (.sub (.sub (.num 100) (.pow (.var .x) (.num 2)))
      (.pow (.var .y) (.num 2))) .x = .neg (.mul (.num 2) (.var .x)) := by
    norm_num +decide [diffE, usesVar, addS, subS, mulS, divS, negS, powS]
  have hdy1 : diffE (.sub (.sub (.num 100) (.pow (.var .x) (.num 2)))
      (.pow (.var .y) (.num 2))) .y = .neg (.mul (.num 2) (.var .y)) := by
    norm_num +decide [diffE, usesVar, addS, subS, mulS, divS, negS, powS]
  have hfx : evalS M (diffE (.sub (.sub (.num 100) (.pow (.var .x) (.num 2)))
      (.pow (.var .y) (.num 2))) .x) x0 y0 = .ok (-(2 * x0)) := by
    rw [hdx1]
    exact rfl
  have hfy : evalS M (diffE (.sub (.sub (.num 100) (.pow (.var .x) (.num 2)))
      (.pow (.var .y) (.num 2))) .y) x0 y0 = .ok (-(2 * y0)) := by
    rw [hdy1]
    exact rfl
  have hb1 := process_core_build M "100 - x**2 - y**2" x0 y0
    (.sub (.sub (.num 100) (.pow (.var .x) (.num 2))) (.pow (.var .y) (.num 2)))
    zv (-(2 * x0)) (-(2 * y0)) Zv rfl hz hfx hfy hZv
  have hpf1 := process_function_of_core_ok M "100 - x**2 - y**2" x0 y0 _ hb1
  have htot2 : totalE (.add (.sub (.pow (.var .x) (.num 2))
      (.pow (.var .y) (.num 2))) (.num 50)) = true := rfl
  obtain ⟨Zv2, hZv2⟩ := np_apply_total _ htot2 M meshX meshY
  have hz2 : evalS M (.add (.sub (.pow (.var .x) (.num 2))
      (.pow (.var .y) (.num 2))) (.num 50)) 1 1 = .ok 50 := by
    norm_num [evalS, powEval]
  have hdx2 : diffE (.add (.sub (.pow (.var .x) (.num 2))
      (.pow (.var .y) (.num 2))) (.num 50)) .x = .mul (.num 2) (.var .x) := by
    norm_num +decide [diffE, usesVar, addS, subS, mulS, divS, negS, powS]
  have hdy2 : diffE (.add (.sub (.pow (.var .x) (.num 2))
      (.pow (.var .y) (.num 2))) (.num 50)) .y = .neg (.mul (.num 2) (.var .y)) := by
    norm_num +decide [diffE, usesVar, addS, subS, mulS, divS, negS, powS]
  have hfx2 : evalS M (diffE (.add (.sub (.pow (.var .x) (.num 2))
      (.pow (.var .y) (.num 2))) (.num 50)) .x) 1 1 = .ok 2 := by
    rw [hdx2]
    norm_num [evalS]
  have hfy2 : evalS M (diffE (.add (.sub (.pow (.var .x) (.num 2))
      (.pow (.var .y) (.num 2))) (.num 50)) .y) 1 1 = .ok (-2) := by
    rw [hdy2]
    norm_num [evalS]
  have hb2 := process_core_build M "x**2 - y**2 + 50" 1 1
    (.add (.sub (.pow (.var .x) (.num 2)) (.pow (.var .y) (.num 2))) (.num 50))
    50 2 (-2) Zv2 rfl hz2 hfx2 hfy2 hZv2
  have hpf2 := process_function_of_core_ok M "x**2 - y**2 + 50" 1 1 _ hb2
  refine ⟨⟨?_, ?_⟩, ⟨?_, ?_, ?_⟩, ?_⟩
  · rw [hpf1]
    simp only [Option.some.injEq]
    ring
  · rw [hpf1]
    simp only [Option.some.injEq]
    ring
  · rw [hpf2]
  · rw [hpf2]
  · rw [hpf2]
  · have h8 : grad_mag_sq 2 (-2) = 8 := by norm_num [grad_mag_sq]
    rw [h8]
    norm_num

/-- C10: scalar mode and grid mode of the compiled evaluator agree: for
every formula whose analysis succeeds and whose expression is
non-constant, every cell of the returned elevation grid equals the
scalar-mode evaluation of the same expression at the corresponding
coordinate pair of the returned meshes. -/
theorem claim_C10 (M : NumModel) (s : String) (x0 y0 : ℚ) (e : Expr)
    (b : AnalysisBundle) (i j : Nat)
    (hs : sympify s = .ok e) (hc : isConst e = false)
    (hb : process_core M s x0 y0 = .ok b)
    (hi : i < 100) (hj : j < 100) :
    evalS M e ((b.Xg.getD i []).getD j 0) ((b.Yg.getD i []).getD j 0)
      = .ok ((b.Zg.getD i []).getD j 0) := by
  obtain ⟨e', Zv, hs', hz, hx, hy, hZ, hbb⟩ := process_core_ok M s x0 y0 b hb
  rw [hs] at hs'
  cases hs'
  unfold np_apply at hZ
  rw [hc] at hZ
  simp only [Bool.false_eq_true, if_false] at hZ
  cases hg : evalRows M e meshX meshY with
  | error m => rw [hg] at hZ; cases hZ
  | ok g =>
      rw [hg] at hZ
      simp only [Except.ok.injEq] at hZ
      subst hZ
      have hlen : g.length = 100 := by
        rw [evalRows_ok_length M e meshX meshY g hg, meshX_length, meshY_length]
        simp
      have hrow := evalRows_ok_getD M e meshX meshY g hg i (by rw [hlen]; exact hi)
      have hrlen : (g.getD i []).length = 100 := by
        rw [evalCells_ok_length M e (meshX.getD i []) (meshY.getD i [])
          (g.getD i []) hrow, meshX_getD i hi, meshY_getD i hi, x_range_length]
        simp [x_range_length]
      have hcell := evalCells_ok_getD M e (meshX.getD i []) (meshY.getD i [])
        (g.getD i []) hrow j (by rw [hrlen]; exact hj)
      rw [hbb]
      exact hcell

/-- Witness for C10 at the concrete formula x + y, cell (0, 0). -/
theorem claim_C10_witness :
    sympify "x + y" = .ok (.add (.var .x) (.var .y)) ∧
    isConst (.add (.var .x) (.var .y)) = false ∧
    (∃ b, process_core M0 "x + y" 0 0 = .ok b ∧
      evalS M0 (.add (.var .x) (.var .y))
          ((b.Xg.getD 0 []).getD 0 0) ((b.Yg.getD 0 []).getD 0 0)
        = .ok ((b.Zg.getD 0 []).getD 0 0)) := by
  obtain ⟨Zv, hZv⟩ := np_apply_total (.add (.var .x) (.var .y)) rfl M0 meshX meshY
  have hb := process_core_build M0 "x + y" 0 0 (.add (.var .x) (.var .y))
    (0 + 0) (1 + 0) (0 + 1) Zv rfl rfl rfl rfl hZv
  exact ⟨rfl, rfl, ⟨_, hb,
    claim_C10 M0 "x + y" 0 0 (.add (.var .x) (.var .y)) _ 0 0 rfl rfl hb
      (by norm_num) (by norm_num)⟩⟩

end Terrain
